import Mathlib

/-!
Shallow embedding of the r8 CTF core: the flag normalization and redemption
engine (`src/r8/util.py`) and the challenge lifecycle manager and activity
cache (`src/r8/challenge.py`).

Machine times are modelled as `Int` seconds; the SQL `BETWEEN` on datetimes
is inclusive comparison.  The SQLite tables are modelled as Lean lists of
rows; `fetchone` on an unordered result set is modelled as the first match
in list order.
-/

namespace R8

/-! ### Flag normalization: `correct_flag` (util.py, lines 420-428) -/

/-- ASCII fragment of Python `str.lower`, applied character-wise. -/
def lowerChar (c : Char) : Char :=
  if 'A' ≤ c ∧ c ≤ 'Z' then Char.ofNat (c.toNat + 32) else c

/-- Character class of the regex `[0-9a-f]`. -/
def isHexChar (c : Char) : Bool :=
  ('0' ≤ c ∧ c ≤ '9') ∨ ('a' ≤ c ∧ c ≤ 'f')

/-- `re.search(r"[0-9a-f]\x7b32\x7d", s)`: leftmost run of 32 hex characters. -/
def findHexRun : List Char → Option (List Char)
  | [] => none
  | c :: rest =>
    if 32 ≤ (c :: rest).length ∧ ((c :: rest).take 32).all isHexChar then
      some ((c :: rest).take 32)
    else
      findHexRun rest

/-- `flag.replace(" ", "").lower()`: removes space characters (U+0020)
only, then lowercases. -/
def stripSpacesLower (s : String) : List Char :=
  (s.data.filter (fun c => c ≠ ' ')).map lowerChar

/-- `correct_flag` from util.py: `flag.replace(" ", "").lower()` removes
space characters (U+0020) only, then the first 32-hex run, if any, is
wrapped in the canonical literal form; otherwise the original input is
returned unchanged. -/
def correct_flag (flag : String) : String :=
  match findHexRun (stripSpacesLower flag) with
  | some run => "__flag__\x7b" ++ String.mk run ++ "\x7d"
  | none => flag

/-- Modelled from the spec wording of normalization ("strip whitespace"):
identical to `correct_flag` except that it removes every whitespace
character, not only spaces.  Used to compare the spec's wording with the
code's behaviour. -/
def correct_flag_claim (flag : String) : String :=
  let filtered := (flag.data.filter (fun c => ¬ c.isWhitespace)).map lowerChar
  match findHexRun filtered with
  | some run => "__flag__\x7b" ++ String.mk run ++ "\x7d"
  | none => flag

/-! ### Relational state (schema of spec §6, as touched by util.py) -/

structure ChallengeRow where
  cid : String
  team : Bool
  t_start : Int
  t_stop : Int
deriving Repr, DecidableEq

structure FlagRow where
  fid : String
  cid : String
  max_submissions : Int
deriving Repr, DecidableEq

structure Event where
  ip : String
  type : String
  data : Option String
  cid : Option String
  uid : Option String
deriving Repr, DecidableEq

/-- The database state: `users(uid)`, `challenges`, `flags`,
`teams(uid, tid)`, `submissions(uid, fid)` and the append-only `events`
table.  Submission timestamps play no role in any modelled check and are
omitted. -/
structure DB where
  users : List String
  challenges : List ChallengeRow
  flags : List FlagRow
  teams : List (String × String)
  submissions : List (String × String)
  events : List Event
deriving Repr

def DB.addEvent (db : DB) (e : Event) : DB :=
  { db with events := db.events ++ [e] }

/-! ### The queries inside `submit_flag` (util.py, lines 431-496) -/

/-- `SELECT 1 FROM users WHERE uid = ?`. -/
def userExists (db : DB) (u : String) : Bool :=
  db.users.any (fun x => x == u)

/-- `SELECT fid, cid FROM flags NATURAL INNER JOIN challenges WHERE fid = ?
OR fid = ?`, with the raw text and its corrected form as the two
parameters.  The natural join requires the owning challenge row to exist. -/
def resolveFlag (db : DB) (text : String) : Option (String × String) :=
  (db.flags.find? (fun f =>
      (f.fid == text || f.fid == correct_flag text) &&
      db.challenges.any (fun c => c.cid == f.cid))).map
    (fun f => (f.fid, f.cid))

/-- `SELECT 1 FROM challenges WHERE cid = ? AND datetime('now') BETWEEN
t_start AND t_stop`. -/
def isActive (db : DB) (now : Int) (cid : String) : Bool :=
  db.challenges.any (fun c =>
    c.cid == cid && decide (c.t_start ≤ now) && decide (now ≤ c.t_stop))

/-- Scalar subquery `SELECT tid FROM teams WHERE uid = ?`: the first team of
the user, if any. -/
def userTid (db : DB) (u : String) : Option String :=
  (db.teams.find? (fun p => p.1 == u)).map (fun p => p.2)

/-- `submissions.uid IN (SELECT uid FROM teams WHERE tid = (SELECT tid FROM
teams WHERE uid = ?))`. -/
def inUserTeam (db : DB) (u v : String) : Bool :=
  match userTid db u with
  | some t => db.teams.any (fun p => p.2 == t && p.1 == v)
  | none => false

/-- Join condition of the duplicate-check query for one submission row:
the row's flag belongs to the challenge, and it was made by the acting
user or — for a team-scored challenge row — by a teammate. -/
def subHits (db : DB) (cid u : String) (s : String × String) : Bool :=
  db.flags.any (fun f =>
    f.fid == s.2 && f.cid == cid &&
    db.challenges.any (fun c =>
      c.cid == cid && (s.1 == u || (c.team && inUserTeam db u s.1))))

/-- `SELECT COUNT(*) FROM submissions NATURAL INNER JOIN flags NATURAL
INNER JOIN challenges WHERE cid = ? AND (uid = ? OR challenges.team = 1 AND
submissions.uid IN teammates)`, reduced to its non-zero test. -/
def alreadySubmitted (db : DB) (cid u : String) : Bool :=
  db.submissions.any (subHits db cid u)

/-- `SELECT COUNT(*) FROM submissions WHERE flags.fid = submissions.fid`. -/
def flagCount (db : DB) (fid : String) : Nat :=
  (db.submissions.filter (fun s => s.2 == fid)).length

/-- `SELECT 1 FROM flags WHERE fid = ? AND (count) >= max_submissions`. -/
def oversubscribed (db : DB) (fid : String) : Bool :=
  db.flags.any (fun f =>
    f.fid == fid && decide ((flagCount db fid : Int) ≥ f.max_submissions))

inductive SubmitError
  | unknownUser
  | unknownFlag
  | inactive
  | alreadySolved
  | exhausted
deriving Repr, DecidableEq

/-- `submit_flag` from util.py: the five checks in source order, each
failure logging its typed event and raising; success logs `flag-submit`,
inserts the `(user, fid)` submission row and returns the owning cid.
The event rows written on the two `flag-err-unknown` paths carry exactly
the fields the source passes to `r8.log` there. -/
def submit_flag (db : DB) (now : Int) (flag user ip : String) (force : Bool) :
    DB × Except SubmitError String :=
  if !(userExists db user) then
    (db.addEvent ⟨ip, "flag-err-unknown", some flag, none, none⟩,
     Except.error SubmitError.unknownUser)
  else
    match resolveFlag db flag with
    | none =>
      (db.addEvent ⟨ip, "flag-err-unknown", some flag, none, some user⟩,
       Except.error SubmitError.unknownFlag)
    | some (fid, cid) =>
      if !(isActive db now cid) && !force then
        (db.addEvent ⟨ip, "flag-err-inactive", some fid, some cid, some user⟩,
         Except.error SubmitError.inactive)
      else if alreadySubmitted db cid user then
        (db.addEvent ⟨ip, "flag-err-solved", some fid, some cid, some user⟩,
         Except.error SubmitError.alreadySolved)
      else if oversubscribed db fid && !force then
        (db.addEvent ⟨ip, "flag-err-used", some fid, some cid, some user⟩,
         Except.error SubmitError.exhausted)
      else
        ({ db with
            submissions := db.submissions ++ [(user, fid)],
            events := db.events ++ [⟨ip, "flag-submit", some fid, some cid, some user⟩] },
         Except.ok cid)

/-! ### Flag creation: `create_flag` (util.py, lines 264-285) -/

/-- One hex digit of `%x`, lowercase. -/
def hexDigit (n : Nat) : Char :=
  Char.ofNat (if n < 10 then 48 + n else 87 + n)

/-- `secrets.token_hex` rendering of a byte string: two lowercase hex
digits per byte.  The bytes themselves stand for the random output of the
operating system. -/
def token_hex : List Nat → List Char
  | [] => []
  | b :: rest => hexDigit (b / 16) :: hexDigit (b % 16) :: token_hex rest

/-- `create_flag` from util.py: when no explicit flag string is given, the
token is the canonical wrap of `secrets.token_hex(16)` (here: of the given
16 random bytes); the row is written with `INSERT OR REPLACE` keyed on
`fid`, modelled as dropping every row with that fid and appending the new
one.  Returns the new state and the token. -/
def create_flag (db : DB) (challenge : String) (max_submissions : Int)
    (flag : Option String) (randomBytes : List Nat) : DB × String :=
  let fid := match flag with
    | some f => f
    | none => "__flag__\x7b" ++ String.mk (token_hex randomBytes) ++ "\x7d"
  ({ db with
      flags := db.flags.filter (fun g => g.fid ≠ fid) ++
        [⟨fid, challenge, max_submissions⟩] },
   fid)

/-! ### Listing assembly: `get_challenges` (util.py, lines 499-563) -/

/-- `html.escape(s, quote=True)` on one character. -/
def escChar (c : Char) : List Char :=
  if c = '&' then "&amp;".data
  else if c = '<' then "&lt;".data
  else if c = '>' then "&gt;".data
  else if c = '"' then "&quot;".data
  else if c = Char.ofNat 39 then "&#x27;".data
  else [c]

def htmlEscape (s : String) : String :=
  String.mk (s.data.flatMap escChar)

/-- The `<pre>` diagnostic rendering of a traceback, as built on every
`except` branch of the listing loop. -/
def diag (tb : String) : String :=
  "<pre>" ++ htmlEscape tb ++ "</pre>"

/-- Outcome of evaluating one challenge instance's three displayed
capabilities: each either yields its value or raises, carrying the
formatted traceback. -/
structure InstEval where
  title : Except String String
  tags : Except String (List String)
  description : Except String String
deriving Repr

structure Entry where
  title : String
  tags : List String
  description : String
deriving Repr, DecidableEq

/-- The per-entry body of the `for challenge in results` loop: try the
title (on failure set all three fields and `continue`), then the tags (on
failure set tags and description and `continue`), then the description. -/
def assemble (inst : InstEval) : Entry :=
  match inst.title with
  | Except.error tb => ⟨"Title Error", [], diag tb⟩
  | Except.ok t =>
    match inst.tags with
    | Except.error tb => ⟨t, [], diag tb⟩
    | Except.ok g =>
      match inst.description with
      | Except.error tb => ⟨t, g, diag tb⟩
      | Except.ok d => ⟨t, g, d⟩

/-- The whole loop: every kept entry is rendered; none is discarded. -/
def assembleAll (l : List InstEval) : List Entry :=
  l.map assemble

/-! ### Lifecycle manager: `_Challenges.start` / `stop` (challenge.py,
lines 179-211) -/

/-- Whether a given instance's `start()` / `stop()` coroutine completes or
raises when awaited. -/
structure InstBehavior where
  startOk : Bool
  stopOk : Bool
deriving Repr, DecidableEq

/-- Result of `_start(cid)` for one instance: the exception, if any, is
caught inside `_start`, and on failure `inst.stop` is replaced by a
no-op coroutine. -/
structure StartOutcome where
  startInvoked : Bool
  startRaised : Bool
  stopOverridden : Bool
deriving Repr, DecidableEq

def _start (b : InstBehavior) : StartOutcome :=
  if b.startOk then
    ⟨true, false, false⟩
  else
    ⟨true, true, true⟩

/-- `start()`: `asyncio.gather` over `_start` for every instance; each
branch handles only its own instance. -/
def startAll (insts : List (String × InstBehavior)) :
    List (String × StartOutcome) :=
  insts.map (fun p => (p.1, _start p.2))

/-- Result of `_stop(cid)` for one instance: whether the instance's
original `stop()` body ran (it does not when `_start` replaced it by the
no-op), and whether it raised; the exception is caught inside `_stop`. -/
structure StopOutcome where
  originalStopInvoked : Bool
  stopRaised : Bool
deriving Repr, DecidableEq

def _stop (b : InstBehavior) (so : StartOutcome) : StopOutcome :=
  if so.stopOverridden then
    ⟨false, false⟩
  else
    ⟨true, !b.stopOk⟩

/-- The whole lifecycle of one process: start every instance, then stop
every instance, pairing each with its own start outcome. -/
def lifecycle (insts : List (String × InstBehavior)) :
    List (String × StartOutcome × StopOutcome) :=
  insts.map (fun p => (p.1, _start p.2, _stop p.2 (_start p.2)))

/-! ### Activity window cache: `Challenge.active` / `_active_times`
(challenge.py, lines 84-94) -/

/-- One call of `_active_times` as seen by a single instance: `cache` is
that instance's current entry in the `functools.lru_cache` (present or
absent).  On a miss the store is read and the value cached.  This models
one evaluation only; the lifetime of the entry in the shared
bounded cache is modelled by `_active_times_lru` below. -/
def active_times (store : Int × Int) (cache : Option (Int × Int)) :
    (Int × Int) × Option (Int × Int) :=
  match cache with
  | some v => (v, some v)
  | none => (store, some store)

/-- One evaluation of the `active` property: `t_start <= time.time() <=
t_stop` on the window obtained from `_active_times`. -/
def activeEval (store : Int × Int) (now : Int) (cache : Option (Int × Int)) :
    Bool × Option (Int × Int) :=
  let r := active_times store cache
  (decide (r.1.1 ≤ now ∧ now ≤ r.1.2), r.2)

/-- Default `maxsize` of `functools.lru_cache()`. -/
def lruMaxsize : Nat := 128

/-- Lookup in the one cache `@functools.lru_cache()` attaches to
`_active_times`: it is shared by every challenge instance and keyed on
`self`, modelled by a numeric instance identity.  Entries are ordered most
recently used first. -/
def lruFind (cache : List (Nat × (Int × Int))) (k : Nat) :
    Option (Nat × (Int × Int)) :=
  cache.find? (fun p => p.1 == k)

/-- `_active_times` through its `functools.lru_cache()`: on a hit the
cached window is returned and the entry becomes most recently used; on a
miss the store is read for that instance, the result inserted as most
recently used, and the least recently used entry discarded when the cache
would exceed `lruMaxsize` (128) entries. -/
def _active_times_lru (store : Nat → Int × Int)
    (cache : List (Nat × (Int × Int))) (k : Nat) :
    (Int × Int) × List (Nat × (Int × Int)) :=
  match lruFind cache k with
  | some p => (p.2, (k, p.2) :: cache.filter (fun q => !(q.1 == k)))
  | none => (store k, ((k, store k) :: cache).take lruMaxsize)

/-- One evaluation of `active` for instance `k` against the shared
cache. -/
def activeLru (store : Nat → Int × Int) (k : Nat) (now : Int)
    (cache : List (Nat × (Int × Int))) :
    Bool × List (Nat × (Int × Int)) :=
  (decide ((_active_times_lru store cache k).1.1 ≤ now ∧
      now ≤ (_active_times_lru store cache k).1.2),
   (_active_times_lru store cache k).2)

/-- A run of `active` evaluations: each event carries the store at that
moment (administrators may edit windows between events), the evaluating
instance and the current time; the shared cache is threaded through. -/
def runActiveLru :
    List ((Nat → Int × Int) × Nat × Int) → List (Nat × (Int × Int)) →
      List Bool
  | [], _ => []
  | (store, k, now) :: rest, cache =>
    (activeLru store k now cache).1 ::
      runActiveLru rest (activeLru store k now cache).2

/-! ### Claim-level predicates (the checks as the spec words them) -/

/-- The acting user exists. -/
def UserExists (db : DB) (u : String) : Prop :=
  u ∈ db.users

/-- The submitted text resolves to a flag: some flag row matches the raw
text or its corrected form, and its owning challenge row exists. -/
def FlagResolves (db : DB) (text : String) : Prop :=
  ∃ f ∈ db.flags, (f.fid = text ∨ f.fid = correct_flag text) ∧
    ∃ c ∈ db.challenges, c.cid = f.cid

/-- The challenge is currently active: some challenge row with this cid
has its window containing the current time, both endpoints included. -/
def ChallengeActive (db : DB) (now : Int) (cid : String) : Prop :=
  ∃ c ∈ db.challenges, c.cid = cid ∧ c.t_start ≤ now ∧ now ≤ c.t_stop

/-- `v` is a member of the team the store reports for `u`. -/
def Teammate (db : DB) (u v : String) : Prop :=
  ∃ p ∈ db.teams, userTid db u = some p.2 ∧ p.1 = v

/-- The acting user — or, when the challenge row is team-scored, any
teammate — already holds a submission among this challenge's flags. -/
def PriorSubmission (db : DB) (cid u : String) : Prop :=
  ∃ s ∈ db.submissions, ∃ f ∈ db.flags, f.fid = s.2 ∧ f.cid = cid ∧
    ∃ c ∈ db.challenges, c.cid = cid ∧
      (s.1 = u ∨ (c.team = true ∧ Teammate db u s.1))

/-- Every flag row carrying this fid still has its submission count below
its cap. -/
def BelowCap (db : DB) (fid : String) : Prop :=
  ∀ f ∈ db.flags, f.fid = fid → (flagCount db fid : Int) < f.max_submissions

/-! ### Bridges between the SQL-level booleans and the claim-level
predicates -/

instance (db : DB) (u : String) : Decidable (UserExists db u) := by
  unfold UserExists
  infer_instance

instance (db : DB) (text : String) : Decidable (FlagResolves db text) := by
  unfold FlagResolves
  infer_instance

instance (db : DB) (now : Int) (cid : String) :
    Decidable (ChallengeActive db now cid) := by
  unfold ChallengeActive
  infer_instance

instance (db : DB) (u v : String) : Decidable (Teammate db u v) := by
  unfold Teammate
  infer_instance

instance (db : DB) (cid u : String) : Decidable (PriorSubmission db cid u) := by
  unfold PriorSubmission
  infer_instance

instance (db : DB) (fid : String) : Decidable (BelowCap db fid) := by
  unfold BelowCap
  infer_instance

theorem userExists_iff (db : DB) (u : String) :
    userExists db u = true ↔ UserExists db u := by
  simp [userExists, UserExists, List.any_eq_true]

theorem resolveFlag_eq_none_iff (db : DB) (text : String) :
    resolveFlag db text = none ↔ ¬ FlagResolves db text := by
  simp [resolveFlag, FlagResolves, Option.map_eq_none', List.find?_eq_none,
    List.any_eq_true]

theorem isActive_iff (db : DB) (now : Int) (cid : String) :
    isActive db now cid = true ↔ ChallengeActive db now cid := by
  simp [isActive, ChallengeActive, List.any_eq_true, and_assoc]

theorem inUserTeam_iff (db : DB) (u v : String) :
    inUserTeam db u v = true ↔ Teammate db u v := by
  unfold inUserTeam Teammate
  cases h : userTid db u with
  | none => simp [h]
  | some t =>
    simp only [h, List.any_eq_true, Bool.and_eq_true, beq_iff_eq,
      Option.some.injEq]
    constructor
    · rintro ⟨p, hp, h2, h1⟩
      exact ⟨p, hp, h2.symm, h1⟩
    · rintro ⟨p, hp, h2, h1⟩
      exact ⟨p, hp, h2.symm, h1⟩

theorem alreadySubmitted_iff (db : DB) (cid u : String) :
    alreadySubmitted db cid u = true ↔ PriorSubmission db cid u := by
  simp [alreadySubmitted, subHits, PriorSubmission, List.any_eq_true,
    inUserTeam_iff, and_assoc]

theorem oversubscribed_eq_false_iff (db : DB) (fid : String) :
    oversubscribed db fid = false ↔ BelowCap db fid := by
  rw [← Bool.not_eq_true]
  simp [oversubscribed, BelowCap, List.any_eq_true, not_lt]

/-! ### Claim C1 -/

/-- **C1**: `submit_flag` fails exactly when one of its five checks fails,
in source order — user exists; flag resolves; challenge active (skipped
under `force`); no prior submission by the user or, for a team-scored
challenge, a teammate among the challenge's flags; submission count below
the cap (skipped under `force`).  Each failure appends exactly its typed
event (`flag-err-unknown`, `flag-err-inactive`, `flag-err-solved`,
`flag-err-used`) and leaves the submissions table unchanged; success
appends the `(user, fid)` row, logs `flag-submit` and returns the owning
cid. -/
theorem c1_submit_flag_characterization
    (db : DB) (now : Int) (flag user ip : String) (force : Bool) :
    (¬ UserExists db user →
      submit_flag db now flag user ip force =
        (db.addEvent ⟨ip, "flag-err-unknown", some flag, none, none⟩,
         Except.error SubmitError.unknownUser)) ∧
    (UserExists db user → ¬ FlagResolves db flag →
      submit_flag db now flag user ip force =
        (db.addEvent ⟨ip, "flag-err-unknown", some flag, none, some user⟩,
         Except.error SubmitError.unknownFlag)) ∧
    (∀ fid cid, UserExists db user →
      resolveFlag db flag = some (fid, cid) →
      ((¬ ChallengeActive db now cid → force = false →
        submit_flag db now flag user ip force =
          (db.addEvent ⟨ip, "flag-err-inactive", some fid, some cid, some user⟩,
           Except.error SubmitError.inactive)) ∧
       ((ChallengeActive db now cid ∨ force = true) →
        PriorSubmission db cid user →
        submit_flag db now flag user ip force =
          (db.addEvent ⟨ip, "flag-err-solved", some fid, some cid, some user⟩,
           Except.error SubmitError.alreadySolved)) ∧
       ((ChallengeActive db now cid ∨ force = true) →
        ¬ PriorSubmission db cid user →
        ¬ BelowCap db fid → force = false →
        submit_flag db now flag user ip force =
          (db.addEvent ⟨ip, "flag-err-used", some fid, some cid, some user⟩,
           Except.error SubmitError.exhausted)) ∧
       ((ChallengeActive db now cid ∨ force = true) →
        ¬ PriorSubmission db cid user →
        (BelowCap db fid ∨ force = true) →
        submit_flag db now flag user ip force =
          ({ db with
              submissions := db.submissions ++ [(user, fid)],
              events := db.events ++
                [⟨ip, "flag-submit", some fid, some cid, some user⟩] },
           Except.ok cid)))) ∧
    (∀ e, (submit_flag db now flag user ip force).2 = Except.error e →
      (submit_flag db now flag user ip force).1.submissions =
        db.submissions) := by
  refine ⟨?_, ?_, ?_, ?_⟩
  · intro h
    rw [← userExists_iff] at h
    simp only [Bool.not_eq_true] at h
    simp [submit_flag, h]
  · intro h1 h2
    rw [← userExists_iff] at h1
    have h2' := (resolveFlag_eq_none_iff db flag).mpr h2
    simp [submit_flag, h1, h2']
  · intro fid cid h1 hres
    rw [← userExists_iff] at h1
    refine ⟨?_, ?_, ?_, ?_⟩
    · intro hact hforce
      subst hforce
      rw [← isActive_iff] at hact
      simp only [Bool.not_eq_true] at hact
      simp [submit_flag, h1, hres, hact]
    · intro hact hsub
      have hs := (alreadySubmitted_iff db cid user).mpr hsub
      rcases hact with h | h
      · have hA := (isActive_iff db now cid).mpr h
        simp [submit_flag, h1, hres, hA, hs]
      · subst h
        simp [submit_flag, h1, hres, hs]
    · intro hact hnsub hncap hforce
      subst hforce
      rw [← alreadySubmitted_iff] at hnsub
      simp only [Bool.not_eq_true] at hnsub
      have hover : oversubscribed db fid = true := by
        rcases Bool.eq_false_or_eq_true (oversubscribed db fid) with h | h
        · exact h
        · exact absurd ((oversubscribed_eq_false_iff db fid).mp h) hncap
      rcases hact with h | h
      · have hA := (isActive_iff db now cid).mpr h
        simp [submit_flag, h1, hres, hA, hnsub, hover]
      · exact absurd h (by simp)
    · intro hact hnsub hcap
      rw [← alreadySubmitted_iff] at hnsub
      simp only [Bool.not_eq_true] at hnsub
      rcases Bool.eq_false_or_eq_true force with hf | hf
      · subst hf
        simp [submit_flag, h1, hres, hnsub]
      · subst hf
        rcases hact with h | h
        · have hA := (isActive_iff db now cid).mpr h
          rcases hcap with hc | hc
          · have hover := (oversubscribed_eq_false_iff db fid).mpr hc
            simp [submit_flag, h1, hres, hA, hnsub, hover]
          · exact absurd hc (by simp)
        · exact absurd h (by simp)
  · intro e
    unfold submit_flag
    split
    · intro _
      rfl
    · split
      · intro _
        rfl
      · split
        · intro _
          rfl
        · split
          · intro _
            rfl
          · split
            · intro _
              rfl
            · intro h
              exact absurd h (by simp)

/-- Concrete database used to instantiate the C1 characterization. -/
def dbC1 : DB :=
  { users := ["alice", "bob"],
    challenges := [⟨"Demo", false, 0, 100⟩],
    flags := [⟨"f1", "Demo", 2⟩],
    teams := [],
    submissions := [],
    events := [] }

/-- Witness for C1: on a concrete state where every check passes, the
characterization yields the successful commit. -/
theorem c1_witness :
    UserExists dbC1 "alice" ∧
    submit_flag dbC1 50 "f1" "alice" "1.2.3.4" false =
      ({ dbC1 with
          submissions := dbC1.submissions ++ [("alice", "f1")],
          events := dbC1.events ++
            [⟨"1.2.3.4", "flag-submit", some "f1", some "Demo", some "alice"⟩] },
       Except.ok "Demo") :=
  ⟨by decide,
   (((c1_submit_flag_characterization dbC1 50 "f1" "alice" "1.2.3.4"
      false).2.2.1 "f1" "Demo" (by decide) (by decide)).2.2.2
    (Or.inl (by decide)) (by decide) (Or.inl (by decide)))⟩

/-! ### Claim C10 -/

/-- Unpacking of a successful flag resolution: the matched flag row is in
the table, carries the returned fid and cid, matches the raw or corrected
text, and its owning challenge row exists. -/
theorem resolveFlag_some {db : DB} {text fid cid : String}
    (h : resolveFlag db text = some (fid, cid)) :
    ∃ f ∈ db.flags, f.fid = fid ∧ f.cid = cid ∧
      (f.fid = text ∨ f.fid = correct_flag text) ∧
      ∃ c ∈ db.challenges, c.cid = cid := by
  unfold resolveFlag at h
  rw [Option.map_eq_some'] at h
  obtain ⟨f, hf, heq⟩ := h
  have hmem := List.mem_of_find?_eq_some hf
  have hp := List.find?_some hf
  simp only [Bool.and_eq_true, Bool.or_eq_true, beq_iff_eq,
    List.any_eq_true] at hp
  obtain ⟨hmatch, c, hc, hcc⟩ := hp
  obtain ⟨h1, h2⟩ := Prod.mk.injEq .. ▸ heq
  exact ⟨f, hmem, h1, h2, hmatch, c, hc, h2 ▸ hcc⟩

/-- Under `force`, the outcome of `submit_flag` is one of: unknown user,
unknown flag, already solved, or success — never inactive or exhausted. -/
theorem submit_flag_force_outcomes
    (db : DB) (now : Int) (flag user ip : String) :
    (submit_flag db now flag user ip true).2 =
      Except.error SubmitError.unknownUser ∨
    (submit_flag db now flag user ip true).2 =
      Except.error SubmitError.unknownFlag ∨
    (submit_flag db now flag user ip true).2 =
      Except.error SubmitError.alreadySolved ∨
    ∃ cid, (submit_flag db now flag user ip true).2 = Except.ok cid := by
  unfold submit_flag
  split
  · exact Or.inl rfl
  · split
    · exact Or.inr (Or.inl rfl)
    · split
      · rename_i hcond
        simp at hcond
      · split
        · exact Or.inr (Or.inr (Or.inl rfl))
        · split
          · rename_i hcond
            simp at hcond
          · exact Or.inr (Or.inr (Or.inr ⟨_, rfl⟩))

/-- **C10**: `force=true` bypasses only the activity-window and cap
checks: a forced submission still fails for a nonexistent user, an
unresolvable flag, or an already-solved challenge (user or, when
team-scored, teammate), and it can never produce the inactive or
exhausted error. -/
theorem c10_force_bypass_scope
    (db : DB) (now : Int) (flag user ip : String) :
    (¬ UserExists db user →
      (submit_flag db now flag user ip true).2 =
        Except.error SubmitError.unknownUser) ∧
    (UserExists db user → ¬ FlagResolves db flag →
      (submit_flag db now flag user ip true).2 =
        Except.error SubmitError.unknownFlag) ∧
    (∀ fid cid, UserExists db user →
      resolveFlag db flag = some (fid, cid) →
      PriorSubmission db cid user →
      (submit_flag db now flag user ip true).2 =
        Except.error SubmitError.alreadySolved) ∧
    (submit_flag db now flag user ip true).2 ≠
      Except.error SubmitError.inactive ∧
    (submit_flag db now flag user ip true).2 ≠
      Except.error SubmitError.exhausted := by
  refine ⟨?_, ?_, ?_, ?_, ?_⟩
  · intro h
    rw [← userExists_iff] at h
    simp only [Bool.not_eq_true] at h
    simp [submit_flag, h]
  · intro h1 h2
    rw [← userExists_iff] at h1
    have h2' := (resolveFlag_eq_none_iff db flag).mpr h2
    simp [submit_flag, h1, h2']
  · intro fid cid h1 hres hsub
    rw [← userExists_iff] at h1
    have hs := (alreadySubmitted_iff db cid user).mpr hsub
    simp [submit_flag, h1, hres, hs]
  · rcases submit_flag_force_outcomes db now flag user ip with h | h | h | ⟨c, h⟩ <;>
      simp [h]
  · rcases submit_flag_force_outcomes db now flag user ip with h | h | h | ⟨c, h⟩ <;>
      simp [h]

/-- Concrete database used to instantiate C10: the window is over and the
flag's cap is reached, yet the forced resubmission still reports the
challenge as already solved. -/
def dbC10 : DB :=
  { users := ["alice"],
    challenges := [⟨"Demo", false, 0, 100⟩],
    flags := [⟨"f1", "Demo", 1⟩],
    teams := [],
    submissions := [("alice", "f1")],
    events := [] }

/-- Witness for C10: at a time far past the window, with the cap already
reached, a forced duplicate submission fails with the already-solved
error. -/
theorem c10_witness :
    (submit_flag dbC10 200 "f1" "alice" "1.2.3.4" true).2 =
      Except.error SubmitError.alreadySolved :=
  (c10_force_bypass_scope dbC10 200 "f1" "alice" "1.2.3.4").2.2.1
    "f1" "Demo" (by decide) (by decide) (by decide)

/-! ### Claim C4 -/

/-- **C4**: a challenge is active exactly when the current time lies in
its window, both endpoints included — both for the `Challenge.active`
property (`activeEval` on a fresh cache) and for the redemption engine's
activity query; a non-forced submission strictly before `t_start` or
strictly after `t_stop` fails with the inactive error; the same call with
`force=true` passes the activity check and proceeds, its outcome being
decided by the remaining duplicate check. -/
theorem c4_window_gating
    (db : DB) (now : Int) (flag user ip fid cid : String) :
    (∀ ts tp : Int, (activeEval (ts, tp) now none).1 = true ↔
      ts ≤ now ∧ now ≤ tp) ∧
    (ChallengeActive db now cid ↔
      ∃ c ∈ db.challenges, c.cid = cid ∧ now ∈ Set.Icc c.t_start c.t_stop) ∧
    (UserExists db user → resolveFlag db flag = some (fid, cid) →
      (∀ c ∈ db.challenges, c.cid = cid → (now < c.t_start ∨ c.t_stop < now)) →
      (submit_flag db now flag user ip false).2 =
        Except.error SubmitError.inactive) ∧
    (UserExists db user → resolveFlag db flag = some (fid, cid) →
      (submit_flag db now flag user ip true).2 =
        (if alreadySubmitted db cid user then
          Except.error SubmitError.alreadySolved
        else Except.ok cid)) := by
  refine ⟨?_, ?_, ?_, ?_⟩
  · intro ts tp
    simp [activeEval, active_times]
  · simp [ChallengeActive, Set.mem_Icc]
  · intro h1 hres hout
    rw [← userExists_iff] at h1
    have hA : isActive db now cid = false := by
      rw [← Bool.not_eq_true, isActive_iff]
      rintro ⟨c, hc, hcc, hs, he⟩
      rcases hout c hc hcc with h | h
      · exact absurd hs (not_le.mpr h)
      · exact absurd he (not_le.mpr h)
    simp [submit_flag, h1, hres, hA]
  · intro h1 hres
    rw [← userExists_iff] at h1
    rcases Bool.eq_false_or_eq_true (alreadySubmitted db cid user) with hd | hd <;>
      simp [submit_flag, h1, hres, hd]

/-- Concrete database used to instantiate C4. -/
def dbC4 : DB :=
  { users := ["alice"],
    challenges := [⟨"Demo", false, 10, 100⟩],
    flags := [⟨"f1", "Demo", 1⟩],
    teams := [],
    submissions := [],
    events := [] }

/-- Witness for C4: at time 5, strictly before the window start 10, the
non-forced submission fails with the inactive error. -/
theorem c4_witness :
    (submit_flag dbC4 5 "f1" "alice" "1.2.3.4" false).2 =
      Except.error SubmitError.inactive :=
  (c4_window_gating dbC4 5 "f1" "alice" "1.2.3.4" "f1" "Demo").2.2.1
    (by decide) (by decide) (by decide)

/-! ### Claim C2 -/

instance {ε α : Type} [DecidableEq ε] [DecidableEq α] :
    DecidableEq (Except ε α)
  | Except.error a, Except.error b =>
    if h : a = b then isTrue (h ▸ rfl) else
      isFalse (fun hh => h (Except.error.inj hh))
  | Except.error _, Except.ok _ => isFalse (fun hh => Except.noConfusion hh)
  | Except.ok _, Except.error _ => isFalse (fun hh => Except.noConfusion hh)
  | Except.ok a, Except.ok b =>
    if h : a = b then isTrue (h ▸ rfl) else
      isFalse (fun hh => h (Except.ok.inj hh))

/-- Team-scored challenge already solved by alice, alice and bob on team
t1, and a window that is closed at time 20. -/
def dbC2 : DB :=
  { users := ["alice", "bob"],
    challenges := [⟨"TeamChal", true, 0, 10⟩],
    flags := [⟨"f1", "TeamChal", 5⟩],
    teams := [("alice", "t1"), ("bob", "t1")],
    submissions := [("alice", "f1")],
    events := [] }

/-- Counterexample to C2 as stated: teammate alice has already solved the
team-scored challenge, yet bob's later non-forced submission at time 20
(after `t_stop = 10`) fails with the inactive error, not the
already-solved error — the activity check runs first. -/
theorem c2_counterexample :
    ("alice", "f1") ∈ dbC2.submissions ∧
    Teammate dbC2 "bob" "alice" ∧
    (∀ c ∈ dbC2.challenges, c.team = true) ∧
    (submit_flag dbC2 20 "f1" "bob" "1.2.3.4" false).2 =
      Except.error SubmitError.inactive ∧
    (submit_flag dbC2 20 "f1" "bob" "1.2.3.4" false).2 ≠
      Except.error SubmitError.alreadySolved := by
  decide

/-- **C2 (amended)**: for a team-scored challenge already holding a
submission by a teammate, any subsequent non-forced call by a team member
whose text resolves to a flag of that challenge never succeeds and never
inserts a submission row; when the acting user exists and the challenge is
currently active, the failure is specifically the already-solved error. -/
theorem c2_team_idempotence
    (db : DB) (now : Int) (text user ip fid cid : String)
    (hres : resolveFlag db text = some (fid, cid))
    (hteam : ∀ c ∈ db.challenges, c.cid = cid → c.team = true)
    (hprior : ∃ s ∈ db.submissions,
      (∃ f ∈ db.flags, f.fid = s.2 ∧ f.cid = cid) ∧ Teammate db user s.1) :
    (∀ c, (submit_flag db now text user ip false).2 ≠ Except.ok c) ∧
    (submit_flag db now text user ip false).1.submissions =
      db.submissions ∧
    (UserExists db user → ChallengeActive db now cid →
      (submit_flag db now text user ip false).2 =
        Except.error SubmitError.alreadySolved) := by
  obtain ⟨s, hsmem, ⟨f, hfmem, hffid, hfcid⟩, hmate⟩ := hprior
  obtain ⟨-, -, -, -, -, c, hcmem, hccid⟩ := resolveFlag_some hres
  have hPrior : PriorSubmission db cid user :=
    ⟨s, hsmem, f, hfmem, hffid, hfcid, c, hcmem, hccid,
     Or.inr ⟨hteam c hcmem hccid, hmate⟩⟩
  have hdup : alreadySubmitted db cid user = true :=
    (alreadySubmitted_iff db cid user).mpr hPrior
  refine ⟨?_, ?_, ?_⟩
  · intro c'
    rcases Bool.eq_false_or_eq_true (userExists db user) with h | h
    · rcases Bool.eq_false_or_eq_true (isActive db now cid) with hA | hA <;>
        simp [submit_flag, h, hres, hA, hdup]
    · simp [submit_flag, h]
  · rcases Bool.eq_false_or_eq_true (userExists db user) with h | h
    · rcases Bool.eq_false_or_eq_true (isActive db now cid) with hA | hA <;>
        simp [submit_flag, h, hres, hA, hdup, DB.addEvent]
    · simp [submit_flag, h, DB.addEvent]
  · intro h1 hact
    rw [← userExists_iff] at h1
    have hA := (isActive_iff db now cid).mpr hact
    simp [submit_flag, h1, hres, hA, hdup]

/-- Witness for C2: at time 5 the window is open, so bob's duplicate team
submission fails with the already-solved error. -/
theorem c2_witness :
    (submit_flag dbC2 5 "f1" "bob" "1.2.3.4" false).2 =
      Except.error SubmitError.alreadySolved :=
  (c2_team_idempotence dbC2 5 "f1" "bob" "1.2.3.4" "f1" "TeamChal"
    (by decide) (by decide) (by decide)).2.2 (by decide) (by decide)

/-! ### Claim C5 -/

/-- A found hex run has length 32, is all hex, and sits at the leftmost
position of the scanned list admitting a 32-hex run. -/
theorem findHexRun_some_spec :
    ∀ {l r : List Char}, findHexRun l = some r →
      r.length = 32 ∧ r.all isHexChar = true ∧
      ∃ i, i + 32 ≤ l.length ∧ r = (l.drop i).take 32 ∧
        ∀ j < i, ¬(j + 32 ≤ l.length ∧
          ((l.drop j).take 32).all isHexChar = true) := by
  intro l
  induction l with
  | nil =>
    intro r h
    simp [findHexRun] at h
  | cons c rest ih =>
    intro r h
    rw [findHexRun] at h
    split at h
    · rename_i hcond
      obtain ⟨hlen, hall⟩ := hcond
      obtain rfl : (c :: rest).take 32 = r := Option.some.inj h
      refine ⟨?_, hall, 0, ?_, by simp, ?_⟩
      · rw [List.length_take]
        omega
      · simpa using hlen
      · intro j hj
        exact absurd hj (Nat.not_lt_zero j)
    · rename_i hcond
      obtain ⟨hr32, hrall, i, hi, hieq, hleft⟩ := ih h
      refine ⟨hr32, hrall, i + 1, ?_, by simpa using hieq, ?_⟩
      · simp only [List.length_cons]
        omega
      · intro j hj
        match j with
        | 0 =>
          intro hcontra
          exact hcond ⟨by simpa using hcontra.1, by simpa using hcontra.2⟩
        | j' + 1 =>
          intro hcontra
          exact hleft j' (by omega)
            ⟨by simpa using hcontra.1, by simpa using hcontra.2⟩

/-- When the scan finds nothing, no position admits a 32-hex run. -/
theorem findHexRun_none_spec :
    ∀ {l : List Char}, findHexRun l = none →
      ∀ j, ¬(j + 32 ≤ l.length ∧
        ((l.drop j).take 32).all isHexChar = true) := by
  intro l
  induction l with
  | nil =>
    intro _ j hcontra
    simp at hcontra
  | cons c rest ih =>
    intro h j
    rw [findHexRun] at h
    split at h
    · exact absurd h (by simp)
    · rename_i hcond
      match j with
      | 0 =>
        intro hcontra
        exact hcond ⟨by simpa using hcontra.1, by simpa using hcontra.2⟩
      | j' + 1 =>
        intro hcontra
        exact ih h j' ⟨by simpa using hcontra.1, by simpa using hcontra.2⟩

/-- Counterexample to C5 as stated: the code removes only space
characters, not all whitespace.  On an input whose 32-hex run is broken by
a tab, `correct_flag` returns the input unchanged, while the spec's
"strip whitespace" normalization (`correct_flag_claim`) would rewrite it
to the canonical wrapped form. -/
theorem c5_counterexample :
    correct_flag "aa11\tbb22cc33dd44ee55ff6600112233" =
      "aa11\tbb22cc33dd44ee55ff6600112233" ∧
    correct_flag_claim "aa11\tbb22cc33dd44ee55ff6600112233" =
      "__flag__\x7baa11bb22cc33dd44ee55ff6600112233\x7d" ∧
    "aa11\tbb22cc33dd44ee55ff6600112233" ≠
      "__flag__\x7baa11bb22cc33dd44ee55ff6600112233\x7d" := by
  refine ⟨by decide, by decide, by decide⟩

/-- **C5 (amended)**: normalization removes space characters (U+0020
only), lowercases, and searches the result for a 32-hex run: if one is
found at a leftmost position, the output is the canonical wrapped form of
that run, otherwise the original input is returned unchanged; the spec's
concrete example normalizes as stated, and the redemption engine's lookup
matches a stored flag equal to either the raw text or this normalized
candidate. -/
theorem c5_normalization (db : DB) (text : String) :
    correct_flag "  AA11 bb22cc33dd44ee55ff6600112233  extra" =
      "__flag__\x7baa11bb22cc33dd44ee55ff6600112233\x7d" ∧
    (∀ s : String,
      findHexRun (stripSpacesLower s) = none →
      correct_flag s = s) ∧
    (∀ (s : String) (r : List Char),
      findHexRun (stripSpacesLower s) = some r →
      correct_flag s = "__flag__\x7b" ++ String.mk r ++ "\x7d" ∧
      r.length = 32 ∧ r.all isHexChar = true ∧
      ∃ i, r = ((stripSpacesLower s).drop i).take 32 ∧
        ∀ j < i, ¬(j + 32 ≤ (stripSpacesLower s).length ∧
          (((stripSpacesLower s).drop j).take 32).all
            isHexChar = true)) ∧
    (¬ resolveFlag db text = none ↔
      ∃ f ∈ db.flags, (f.fid = text ∨ f.fid = correct_flag text) ∧
        ∃ c ∈ db.challenges, c.cid = f.cid) := by
  refine ⟨by decide, ?_, ?_, ?_⟩
  · intro s h
    simp [correct_flag, h]
  · intro s r h
    obtain ⟨h32, hall, i, _, hieq, hleft⟩ := findHexRun_some_spec h
    exact ⟨by simp [correct_flag, h], h32, hall, i, hieq, hleft⟩
  · rw [resolveFlag_eq_none_iff]
    exact not_not

/-- Witness for C5: a concrete input whose 32-hex run starts after two
non-hex characters is rewritten to the canonical wrapped form. -/
theorem c5_witness :
    correct_flag "xx AA11bb22cc33dd44ee55ff6600112233" =
      "__flag__\x7baa11bb22cc33dd44ee55ff6600112233\x7d" :=
  ((c5_normalization ⟨[], [], [], [], [], []⟩ "").2.2.1
    "xx AA11bb22cc33dd44ee55ff6600112233"
    "aa11bb22cc33dd44ee55ff6600112233".data (by decide)).1

/-! ### Claim C6 -/

/-- Instance whose title raises while tags and description would evaluate
fine. -/
def instC6 : InstEval :=
  { title := Except.error "boom",
    tags := Except.ok ["web"],
    description := Except.ok "desc" }

/-- Counterexample to C6 as stated: the three fields are not evaluated
independently — a title failure also clobbers the entry's tags (which
would evaluate to `["web"]`) and its description (which would evaluate to
`"desc"`), because the loop `continue`s after the first failing field. -/
theorem c6_counterexample :
    instC6.tags = Except.ok ["web"] ∧
    instC6.description = Except.ok "desc" ∧
    assemble instC6 = ⟨"Title Error", [], "<pre>boom</pre>"⟩ ∧
    (assemble instC6).tags ≠ ["web"] ∧
    (assemble instC6).description ≠ "desc" := by
  refine ⟨rfl, rfl, by decide, by decide, by decide⟩

/-- **C6 (amended)**: the kept entry's fields are evaluated in the order
title, tags, description with short-circuiting: a title failure renders
the whole entry as the inert diagnostic (title "Title Error", empty tags,
traceback description) without evaluating the other two; a tags failure
keeps the evaluated title and renders empty tags plus the traceback
description; a description failure replaces only the description; no
failure discards the entry, and sibling entries are never affected. -/
theorem c6_listing_fault_isolation :
    (∀ (inst : InstEval) (tb : String),
      inst.title = Except.error tb →
      assemble inst = ⟨"Title Error", [], diag tb⟩) ∧
    (∀ (inst : InstEval) (t tb : String),
      inst.title = Except.ok t → inst.tags = Except.error tb →
      assemble inst = ⟨t, [], diag tb⟩) ∧
    (∀ (inst : InstEval) (t : String) (g : List String) (tb : String),
      inst.title = Except.ok t → inst.tags = Except.ok g →
      inst.description = Except.error tb →
      assemble inst = ⟨t, g, diag tb⟩) ∧
    (∀ (inst : InstEval) (t : String) (g : List String) (d : String),
      inst.title = Except.ok t → inst.tags = Except.ok g →
      inst.description = Except.ok d →
      assemble inst = ⟨t, g, d⟩) ∧
    (∀ l : List InstEval, (assembleAll l).length = l.length) ∧
    (∀ (l1 l2 : List InstEval) (inst : InstEval),
      assembleAll (l1 ++ inst :: l2) =
        assembleAll l1 ++ (assemble inst :: assembleAll l2)) := by
  refine ⟨?_, ?_, ?_, ?_, ?_, ?_⟩
  · intro inst tb h
    simp [assemble, h]
  · intro inst t tb h1 h2
    simp [assemble, h1, h2]
  · intro inst t g tb h1 h2 h3
    simp [assemble, h1, h2, h3]
  · intro inst t g d h1 h2 h3
    simp [assemble, h1, h2, h3]
  · intro l
    simp [assembleAll]
  · intro l1 l2 inst
    simp [assembleAll]

/-- Witness for C6: a concrete tags failure keeps the evaluated title,
empties the tags and renders the escaped traceback. -/
theorem c6_witness :
    assemble ⟨Except.ok "T", Except.error "<tb>", Except.ok "D"⟩ =
      ⟨"T", [], "<pre>&lt;tb&gt;</pre>"⟩ := by
  have h := c6_listing_fault_isolation.2.1
    ⟨Except.ok "T", Except.error "<tb>", Except.ok "D"⟩ "T" "<tb>" rfl rfl
  rw [h]
  decide

/-! ### Claim C7 -/

/-- **C7**: a `start()` exception is caught inside `_start` (recorded, not
propagated), marks the instance so its original `stop()` is never invoked,
and does not disturb any sibling: every instance's `start` is invoked, a
successfully started instance's original `stop` still runs at shutdown
(its own failure likewise caught and recorded), and the lifecycle of a
batch decomposes pointwise, so one instance's behavior never changes
another's outcome. -/
theorem c7_lifecycle_isolation :
    (∀ b : InstBehavior, (_start b).startInvoked = true) ∧
    (∀ b : InstBehavior, (_start b).startRaised = !b.startOk) ∧
    (∀ b : InstBehavior, b.startOk = false →
      (_start b).stopOverridden = true ∧
      (_stop b (_start b)).originalStopInvoked = false ∧
      (_stop b (_start b)).stopRaised = false) ∧
    (∀ b : InstBehavior, b.startOk = true →
      (_stop b (_start b)).originalStopInvoked = true ∧
      (_stop b (_start b)).stopRaised = !b.stopOk) ∧
    (∀ insts : List (String × InstBehavior),
      (startAll insts).length = insts.length ∧
      (lifecycle insts).length = insts.length) ∧
    (∀ (l1 l2 : List (String × InstBehavior)) (p : String × InstBehavior),
      lifecycle (l1 ++ p :: l2) =
        lifecycle l1 ++
          ((p.1, _start p.2, _stop p.2 (_start p.2)) :: lifecycle l2)) := by
  refine ⟨?_, ?_, ?_, ?_, ?_, ?_⟩
  · intro b
    cases hb : b.startOk <;> simp [_start, hb]
  · intro b
    cases hb : b.startOk <;> simp [_start, hb]
  · intro b hb
    simp [_start, _stop, hb]
  · intro b hb
    simp [_start, _stop, hb]
  · intro insts
    constructor <;> simp [startAll, lifecycle]
  · intro l1 l2 p
    simp [lifecycle]

/-- Witness for C7: an instance whose `start` raises has its original
`stop` skipped, with nothing propagated. -/
theorem c7_witness :
    (_start ⟨false, true⟩).stopOverridden = true ∧
    (_stop ⟨false, true⟩ (_start ⟨false, true⟩)).originalStopInvoked = false ∧
    (_stop ⟨false, true⟩ (_start ⟨false, true⟩)).stopRaised = false :=
  c7_lifecycle_isolation.2.2.1 ⟨false, true⟩ rfl

/-! ### Claim C9 -/

/-- The two runs' stores agree on each instance's window at that
instance's first evaluation (`seen` accumulates the instances already
evaluated); edits at any later point are unconstrained. -/
def StoresAgreeAtFirst :
    List Nat → List ((Nat → Int × Int) × (Nat → Int × Int) × Nat × Int) →
      Prop
  | _, [] => True
  | seen, e :: rest =>
    (e.2.2.1 ∉ seen → e.1 e.2.2.1 = e.2.1 e.2.2.1) ∧
    StoresAgreeAtFirst (e.2.2.1 :: seen) rest

theorem storesAgree_mono :
    ∀ (events : List ((Nat → Int × Int) × (Nat → Int × Int) × Nat × Int))
      (seen seen' : List Nat), seen ⊆ seen' →
      StoresAgreeAtFirst seen events → StoresAgreeAtFirst seen' events := by
  intro events
  induction events with
  | nil =>
    intro _ _ _ _
    trivial
  | cons e rest ih =>
    intro seen seen' hsub h
    exact ⟨fun hk => h.1 (fun hmem => hk (hsub hmem)),
      ih _ _ (List.cons_subset_cons _ hsub) h.2⟩

/-- While every instance an event touches lies in a set of at most 128
keys, no cache entry is ever evicted, so two runs whose stores agree at
each instance's first evaluation produce identical `active` results. -/
theorem runLru_agree_aux :
    ∀ (events : List ((Nat → Int × Int) × (Nat → Int × Int) × Nat × Int))
      (cache : List (Nat × (Int × Int))) (K : List Nat),
      (∀ e ∈ events, e.2.2.1 ∈ K) →
      (cache.map Prod.fst).Nodup →
      cache.map Prod.fst ⊆ K →
      K.length ≤ lruMaxsize →
      StoresAgreeAtFirst (cache.map Prod.fst) events →
      runActiveLru (events.map (fun e => (e.1, e.2.2))) cache =
        runActiveLru (events.map (fun e => (e.2.1, e.2.2))) cache := by
  intro events
  induction events with
  | nil =>
    intro cache K _ _ _ _ _
    rfl
  | cons e rest ih =>
    obtain ⟨s1, s2, k, now⟩ := e
    intro cache K hkeys hnodup hsubK hK hagree
    have hkK : k ∈ K := hkeys _ (List.mem_cons_self _ _)
    have hkeys' : ∀ e ∈ rest, e.2.2.1 ∈ K :=
      fun e he => hkeys e (List.mem_cons_of_mem _ he)
    simp only [List.map_cons, runActiveLru]
    cases hfind : lruFind cache k with
    | some p =>
      have hc1 : activeLru s1 k now cache = activeLru s2 k now cache := by
        simp [activeLru, _active_times_lru, hfind]
      have hc2 : (activeLru s2 k now cache).2 =
          (k, p.2) :: cache.filter (fun q => !(q.1 == k)) := by
        simp [activeLru, _active_times_lru, hfind]
      have hFsub : (cache.filter (fun q => !(q.1 == k))).map Prod.fst ⊆
          cache.map Prod.fst :=
        (List.Sublist.map Prod.fst (List.filter_sublist cache)).subset
      have hFnodup :
          ((cache.filter (fun q => !(q.1 == k))).map Prod.fst).Nodup :=
        hnodup.sublist (List.Sublist.map Prod.fst (List.filter_sublist cache))
      have hknotF : k ∉ (cache.filter (fun q => !(q.1 == k))).map Prod.fst := by
        intro hmem
        obtain ⟨q, hq, hqk⟩ := List.mem_map.mp hmem
        have := (List.mem_filter.mp hq).2
        rw [hqk] at this
        simp at this
      have hseen : cache.map Prod.fst ⊆
          k :: (cache.filter (fun q => !(q.1 == k))).map Prod.fst := by
        intro x hx
        by_cases hxk : x = k
        · exact hxk ▸ List.mem_cons_self _ _
        · obtain ⟨q, hq, hqx⟩ := List.mem_map.mp hx
          refine List.mem_cons_of_mem _ (List.mem_map.mpr ⟨q, ?_, hqx⟩)
          refine List.mem_filter.mpr ⟨hq, ?_⟩
          simp [hqx, hxk]
      rw [hc1, hc2]
      refine congrArg _ (ih ((k, p.2) :: cache.filter (fun q => !(q.1 == k)))
        K hkeys' ?_ ?_ hK ?_)
      · exact List.nodup_cons.mpr ⟨hknotF, hFnodup⟩
      · intro x hx
        rcases List.mem_cons.mp hx with h | h
        · exact h ▸ hkK
        · exact hsubK (hFsub h)
      · refine storesAgree_mono rest (k :: cache.map Prod.fst) _ ?_ hagree.2
        intro x hx
        rcases List.mem_cons.mp hx with h | h
        · exact h ▸ List.mem_cons_self _ _
        · exact hseen h
    | none =>
      have hknot : k ∉ cache.map Prod.fst := by
        intro hmem
        obtain ⟨q, hq, hqk⟩ := List.mem_map.mp hmem
        have := List.find?_eq_none.mp hfind q hq
        rw [hqk] at this
        simp at this
      have hv : s1 k = s2 k := hagree.1 hknot
      have hlen : ((k, s2 k) :: cache).length ≤ lruMaxsize := by
        have hnd : (k :: cache.map Prod.fst).Nodup :=
          List.nodup_cons.mpr ⟨hknot, hnodup⟩
        have hsub : (k :: cache.map Prod.fst) ⊆ K := by
          intro x hx
          rcases List.mem_cons.mp hx with h | h
          · exact h ▸ hkK
          · exact hsubK h
        have := (hnd.subperm hsub).length_le
        simp only [List.length_cons, List.length_map] at this
        simp only [List.length_cons]
        omega
      have hc2 : (activeLru s2 k now cache).2 = (k, s2 k) :: cache := by
        simp only [activeLru, _active_times_lru, hfind]
        exact List.take_of_length_le hlen
      have hc1 : activeLru s1 k now cache = activeLru s2 k now cache := by
        simp only [activeLru, _active_times_lru, hfind, hv]
      rw [hc1, hc2]
      refine congrArg _ (ih ((k, s2 k) :: cache) K hkeys' ?_ ?_ hK ?_)
      · exact List.nodup_cons.mpr ⟨hknot, hnodup⟩
      · intro x hx
        rcases List.mem_cons.mp hx with h | h
        · exact h ▸ hkK
        · exact hsubK h
      · exact hagree.2

/-- Store before the administrator's edit: every window is `(0, 10)`. -/
def c9_base : Nat → Int × Int := fun _ => (0, 10)

/-- Store after the administrator edits instance 0's window. -/
def c9_edited : Nat → Int × Int :=
  fun k => if k == 0 then (100, 200) else (0, 10)

/-- Eviction trace: instance 0 evaluates first (reading `(0, 10)`), then
128 other instances evaluate — filling the 128-entry cache and evicting
instance 0's entry — and finally instance 0 evaluates again. -/
def c9_events (s : Nat → Int × Int) : List ((Nat → Int × Int) × Nat × Int) :=
  ((c9_base, 0, 5) :: (List.range 128).map (fun j => (s, j + 1, 5))) ++
    [(s, 0, 5)]

set_option maxRecDepth 10000 in
/-- Counterexample to C9 as stated: `functools.lru_cache()` defaults to
`maxsize = 128`, one cache shared by all instances, so after 128 other
instances evaluate `active`, instance 0's entry is evicted and its next
evaluation re-reads the store.  The two runs differ only in the edit to
instance 0's window made after its first read (the stores agree on every
other instance), yet the final `active` result differs — the edit is
observed, refuting "identical results for the rest of the process
lifetime". -/
theorem c9_counterexample :
    c9_base 0 = (0, 10) ∧
    c9_edited 0 = (100, 200) ∧
    c9_edited 1 = c9_base 1 ∧
    (runActiveLru (c9_events c9_base) []).getLast? = some true ∧
    (runActiveLru (c9_events c9_edited) []).getLast? = some false ∧
    runActiveLru (c9_events c9_base) [] ≠
      runActiveLru (c9_events c9_edited) [] := by
  decide

/-- **C9 (amended)**: an evaluation of `active` whose instance entry is
present in the shared `lru_cache` reuses the cached window without
consulting the store, and keeps the entry; since the cache holds at most
128 entries, the first-read window is reused only until eviction: in any
run touching at most 128 distinct instances no entry is ever evicted, and
two runs that differ only in edits made to stored windows after each
instance's first evaluation produce identical `active` results for the
whole run. -/
theorem c9_lru_window_staleness
    (events : List ((Nat → Int × Int) × (Nat → Int × Int) × Nat × Int))
    (K : List Nat)
    (hkeys : ∀ e ∈ events, e.2.2.1 ∈ K)
    (hK : K.length ≤ lruMaxsize)
    (hagree : StoresAgreeAtFirst [] events) :
    (runActiveLru (events.map (fun e => (e.1, e.2.2))) [] =
      runActiveLru (events.map (fun e => (e.2.1, e.2.2))) []) ∧
    (∀ (s s' : Nat → Int × Int) (k : Nat) (now : Int)
        (cache : List (Nat × (Int × Int))) (p : Nat × (Int × Int)),
      lruFind cache k = some p →
      activeLru s k now cache = activeLru s' k now cache ∧
      lruFind (activeLru s k now cache).2 k = some (k, p.2)) := by
  constructor
  · exact runLru_agree_aux events [] K hkeys (by simp) (by simp) hK hagree
  · intro s s' k now cache p hfind
    constructor
    · simp [activeLru, _active_times_lru, hfind]
    · have h2 : (activeLru s k now cache).2 =
          (k, p.2) :: cache.filter (fun q => !(q.1 == k)) := by
        simp only [activeLru, _active_times_lru, hfind]
      rw [h2]
      simp [lruFind]

/-- Window store before the edit, used by the C9 witness. -/
def c9_w_before : Nat → Int × Int := fun _ => (0, 10)

/-- Window store after the edit, used by the C9 witness. -/
def c9_w_after : Nat → Int × Int := fun _ => (100, 200)

/-- Witness events: instance 0 evaluates twice; the second run's store
carries the edited window at the second evaluation. -/
def c9_w_events :
    List ((Nat → Int × Int) × (Nat → Int × Int) × Nat × Int) :=
  [(c9_w_before, c9_w_before, 0, 5), (c9_w_before, c9_w_after, 0, 7)]

/-- Witness for C9: with a single instance (well within the 128-entry
cache) the edit after the first read is never observed — both runs
produce the same results. -/
theorem c9_witness :
    runActiveLru (c9_w_events.map (fun e => (e.1, e.2.2))) [] =
      runActiveLru (c9_w_events.map (fun e => (e.2.1, e.2.2))) [] :=
  (c9_lru_window_staleness c9_w_events [0] (by decide) (by decide)
    ⟨fun _ => rfl, fun h => absurd (List.mem_singleton_self 0) h,
     trivial⟩).1

/-! ### Claim C8 -/

theorem hexDigit_isHexChar (n : Nat) (h : n < 16) :
    isHexChar (hexDigit n) = true := by
  interval_cases n <;> decide

theorem token_hex_length :
    ∀ bytes : List Nat, (token_hex bytes).length = 2 * bytes.length := by
  intro bytes
  induction bytes with
  | nil => rfl
  | cons b rest ih =>
    simp only [token_hex, List.length_cons, ih]
    omega

theorem token_hex_all_hex :
    ∀ bytes : List Nat, (∀ b ∈ bytes, b < 256) →
      (token_hex bytes).all isHexChar = true := by
  intro bytes
  induction bytes with
  | nil =>
    intro _
    rfl
  | cons b rest ih =>
    intro h
    have hb := h b (List.mem_cons_self b rest)
    simp only [token_hex, List.all_cons, Bool.and_eq_true]
    refine ⟨hexDigit_isHexChar _ ?_, hexDigit_isHexChar _ ?_,
      by simpa using ih (fun x hx => h x (List.mem_cons_of_mem b hx))⟩
    · omega
    · exact Nat.mod_lt b (by omega)

/-- **C8**: with no explicit token, `create_flag` returns exactly
`__flag__` wrapping a payload of 32 lowercase-hex characters rendered
from the 16 random bytes; with an explicit token equal to an existing
flag's token it does not error: the store afterwards holds exactly one
row for that token, carrying the new owning challenge and cap, and every
row for a different token is preserved. -/
theorem c8_create_flag
    (db : DB) (challenge : String) (maxSubs : Int) (bytes : List Nat)
    (t : String) :
    (bytes.length = 16 → (∀ b ∈ bytes, b < 256) →
      ∃ payload : List Char,
        (create_flag db challenge maxSubs none bytes).2 =
          "__flag__\x7b" ++ String.mk payload ++ "\x7d" ∧
        payload.length = 32 ∧ payload.all isHexChar = true) ∧
    ((create_flag db challenge maxSubs (some t) bytes).2 = t ∧
      (create_flag db challenge maxSubs (some t) bytes).1.flags =
        db.flags.filter (fun g => g.fid ≠ t) ++ [⟨t, challenge, maxSubs⟩] ∧
      (create_flag db challenge maxSubs (some t) bytes).1.flags.filter
          (fun g => g.fid = t) = [⟨t, challenge, maxSubs⟩] ∧
      ∀ g ∈ db.flags, g.fid ≠ t →
        g ∈ (create_flag db challenge maxSubs (some t) bytes).1.flags) := by
  refine ⟨?_, rfl, rfl, ?_, ?_⟩
  · intro hlen hbytes
    refine ⟨token_hex bytes, rfl, ?_, token_hex_all_hex bytes hbytes⟩
    rw [token_hex_length, hlen]
  · have hstep : (create_flag db challenge maxSubs (some t) bytes).1.flags =
        db.flags.filter (fun g => g.fid ≠ t) ++
          [⟨t, challenge, maxSubs⟩] := rfl
    rw [hstep, List.filter_append]
    have h1 : (db.flags.filter (fun g => g.fid ≠ t)).filter
        (fun g => g.fid = t) = [] := by
      rw [List.filter_filter]
      apply List.filter_eq_nil_iff.mpr
      intro g _
      simp
    rw [h1]
    simp
  · intro g hg hgt
    have hstep : (create_flag db challenge maxSubs (some t) bytes).1.flags =
        db.flags.filter (fun x => x.fid ≠ t) ++
          [⟨t, challenge, maxSubs⟩] := rfl
    rw [hstep]
    refine List.mem_append_left _ (List.mem_filter.mpr ⟨hg, by simpa using hgt⟩)

/-- Witness for C8: sixteen `0xab` bytes yield the canonical wrapped
32-hex token. -/
theorem c8_witness :
    (List.replicate 16 171).length = 16 ∧
    ∃ payload : List Char,
      (create_flag ⟨[], [], [], [], [], []⟩ "Demo" 1 none
        (List.replicate 16 171)).2 =
          "__flag__\x7b" ++ String.mk payload ++ "\x7d" ∧
      payload.length = 32 ∧ payload.all isHexChar = true :=
  ⟨by decide,
   (c8_create_flag ⟨[], [], [], [], [], []⟩ "Demo" 1
      (List.replicate 16 171) "").1 (by decide) (by decide)⟩

/-! ### Claim C3 -/

/-- A sequence of non-forced submissions of the same text, one per user,
threading the database state. -/
def runSubmissions (now : Int) (text ip : String) :
    DB → List String → DB × List (Except SubmitError String)
  | db, [] => (db, [])
  | db, u :: rest =>
    let r := submit_flag db now text u ip false
    let rs := runSubmissions now text ip r.1 rest
    (rs.1, r.2 :: rs.2)

/-- A fresh submission row `(v, w)` by a different user never triggers the
duplicate check for `u` when every challenge row of `cid` is
individually scored. -/
theorem subHits_new_false (db : DB) (cid u v w : String)
    (hteamfree : ∀ c ∈ db.challenges, c.cid = cid → c.team = false)
    (hne : v ≠ u) :
    subHits db cid u (v, w) = false := by
  rw [← Bool.not_eq_true]
  intro hcontra
  simp only [subHits, List.any_eq_true, Bool.and_eq_true, Bool.or_eq_true,
    beq_iff_eq] at hcontra
  obtain ⟨f, hf, ⟨hffid, hfcid⟩, c, hc, hccid, hdisj⟩ := hcontra
  rcases hdisj with h | ⟨hteam, _⟩
  · exact hne h
  · rw [hteamfree c hc hccid] at hteam
    exact Bool.false_ne_true hteam

/-- When every flag row carrying `fid` has cap `N`, and such a row
exists, the cap check is exactly the comparison of the current count with
`N`. -/
theorem oversubscribed_eq (db : DB) (fid : String) (N : Nat)
    (hex : ∃ f ∈ db.flags, f.fid = fid)
    (hcap : ∀ f ∈ db.flags, f.fid = fid → f.max_submissions = (N : Int)) :
    oversubscribed db fid = decide ((N : Int) ≤ (flagCount db fid : Int)) := by
  by_cases hc : (N : Int) ≤ (flagCount db fid : Int)
  · rw [decide_eq_true hc]
    obtain ⟨f, hf, hfid⟩ := hex
    simp only [oversubscribed, List.any_eq_true]
    refine ⟨f, hf, ?_⟩
    simp only [Bool.and_eq_true, beq_iff_eq]
    exact ⟨hfid, decide_eq_true (by rw [hcap f hf hfid]; exact hc)⟩
  · rw [decide_eq_false hc, ← Bool.not_eq_true]
    intro hcontra
    simp only [oversubscribed, List.any_eq_true, Bool.and_eq_true,
      beq_iff_eq, decide_eq_true_eq] at hcontra
    obtain ⟨f, hf, hfid, hge⟩ := hcontra
    rw [hcap f hf hfid] at hge
    exact hc hge

/-- Induction core for the cap-enforcement run: with `ext` users already
holding submissions of the flag (and the base state counting zero), the
remaining users succeed until the count reaches the cap `N`, and the next
one fails with the exhausted error. -/
theorem c3_run_aux (db : DB) (now : Int) (text ip fid cid : String) (N : Nat)
    (hres : resolveFlag db text = some (fid, cid))
    (hcap : ∀ f ∈ db.flags, f.fid = fid → f.max_submissions = (N : Int))
    (hteamfree : ∀ c ∈ db.challenges, c.cid = cid → c.team = false)
    (hact : isActive db now cid = true)
    (hcount : flagCount db fid = 0) :
    ∀ (rest ext : List String) (Ev : List Event) (S : List (String × String)),
      S = db.submissions ++ ext.map (fun v => (v, fid)) →
      (∀ u ∈ rest, u ∈ db.users) →
      (∀ u ∈ rest, alreadySubmitted db cid u = false) →
      (∀ u ∈ rest, u ∉ ext) →
      rest.Nodup →
      ext.length + rest.length = N + 1 →
      ext.length ≤ N →
      (runSubmissions now text ip
        ⟨db.users, db.challenges, db.flags, db.teams, S, Ev⟩ rest).2 =
        List.replicate (N - ext.length) (Except.ok cid) ++
          [Except.error SubmitError.exhausted] := by
  intro rest
  induction rest with
  | nil =>
    intro ext Ev S hS hmem hfresh hnotext hnodup hlen hle
    exfalso
    simp only [List.length_nil] at hlen
    omega
  | cons u rest' ih =>
    intro ext Ev S hS hmem hfresh hnotext hnodup hlen hle
    have huser : userExists db u = true := by
      rw [userExists_iff]
      exact hmem u (List.mem_cons_self u rest')
    have h1 : userExists
        ⟨db.users, db.challenges, db.flags, db.teams, S, Ev⟩ u = true := huser
    have hres1 : resolveFlag
        ⟨db.users, db.challenges, db.flags, db.teams, S, Ev⟩ text =
          some (fid, cid) := hres
    have hact1 : isActive
        ⟨db.users, db.challenges, db.flags, db.teams, S, Ev⟩ now cid =
          true := hact
    have hcnt0 : (db.submissions.filter (fun s => s.2 == fid)).length = 0 :=
      hcount
    have hextcnt : (ext.map (fun v => (v, fid))).filter
        (fun s => s.2 == fid) = ext.map (fun v => (v, fid)) := by
      apply List.filter_eq_self.mpr
      intro a ha
      obtain ⟨v, hv, rfl⟩ := List.mem_map.mp ha
      simp
    have hcnt1 : flagCount
        ⟨db.users, db.challenges, db.flags, db.teams, S, Ev⟩ fid =
          ext.length := by
      show (S.filter (fun s => s.2 == fid)).length = ext.length
      rw [hS, List.filter_append, List.length_append, hcnt0, hextcnt,
        List.length_map]
      omega
    have hdup1 : alreadySubmitted
        ⟨db.users, db.challenges, db.flags, db.teams, S, Ev⟩ cid u =
          false := by
      show S.any (subHits
        ⟨db.users, db.challenges, db.flags, db.teams, S, Ev⟩ cid u) = false
      have hsubeq : subHits
          ⟨db.users, db.challenges, db.flags, db.teams, S, Ev⟩ cid u =
            subHits db cid u := rfl
      rw [hsubeq, hS, List.any_append, Bool.or_eq_false_iff]
      refine ⟨hfresh u (List.mem_cons_self u rest'), ?_⟩
      rw [← Bool.not_eq_true, List.any_eq_true]
      rintro ⟨p, hp, hhit⟩
      obtain ⟨v, hv, rfl⟩ := List.mem_map.mp hp
      have hvne : v ≠ u := fun he =>
        (hnotext u (List.mem_cons_self u rest')) (he ▸ hv)
      rw [subHits_new_false db cid u v fid hteamfree hvne] at hhit
      exact Bool.false_ne_true hhit
    have hexf : ∃ f ∈ db.flags, f.fid = fid := by
      obtain ⟨f, hf, hfid, -⟩ := resolveFlag_some hres
      exact ⟨f, hf, hfid⟩
    have hover1 : oversubscribed
        ⟨db.users, db.challenges, db.flags, db.teams, S, Ev⟩ fid =
          decide ((N : Int) ≤ (ext.length : Int)) := by
      rw [oversubscribed_eq
        ⟨db.users, db.challenges, db.flags, db.teams, S, Ev⟩ fid N hexf hcap,
        hcnt1]
    rcases Nat.lt_or_ge ext.length N with hlt | hge
    · have hover : oversubscribed
          ⟨db.users, db.challenges, db.flags, db.teams, S, Ev⟩ fid =
            false := by
        rw [hover1]
        exact decide_eq_false (by omega)
      have hstep : submit_flag
          ⟨db.users, db.challenges, db.flags, db.teams, S, Ev⟩
            now text u ip false =
          (⟨db.users, db.challenges, db.flags, db.teams, S ++ [(u, fid)],
            Ev ++ [⟨ip, "flag-submit", some fid, some cid, some u⟩]⟩,
           Except.ok cid) := by
        simp [submit_flag, h1, hres1, hact1, hdup1, hover]
      have hnodup' := List.nodup_cons.mp hnodup
      have hrec := ih (ext ++ [u])
        (Ev ++ [⟨ip, "flag-submit", some fid, some cid, some u⟩])
        (S ++ [(u, fid)])
        (by rw [hS, List.map_append, List.append_assoc]; rfl)
        (fun w hw => hmem w (List.mem_cons_of_mem u hw))
        (fun w hw => hfresh w (List.mem_cons_of_mem u hw))
        (by
          intro w hw
          rw [List.mem_append]
          rintro (h | h)
          · exact (hnotext w (List.mem_cons_of_mem u hw)) h
          · rw [List.mem_singleton] at h
            exact hnodup'.1 (h ▸ hw))
        hnodup'.2
        (by
          simp only [List.length_append, List.length_singleton]
          simp only [List.length_cons] at hlen
          omega)
        (by
          simp only [List.length_append, List.length_singleton]
          omega)
      have hNE : N - ext.length = (N - (ext ++ [u]).length) + 1 := by
        simp only [List.length_append, List.length_singleton]
        omega
      simp only [runSubmissions, hstep]
      rw [hrec, hNE, List.replicate_succ, List.cons_append]
    · have hext : ext.length = N := le_antisymm hle hge
      have hover : oversubscribed
          ⟨db.users, db.challenges, db.flags, db.teams, S, Ev⟩ fid =
            true := by
        rw [hover1, hext]
        exact decide_eq_true (le_refl _)
      have hstep : submit_flag
          ⟨db.users, db.challenges, db.flags, db.teams, S, Ev⟩
            now text u ip false =
          ((⟨db.users, db.challenges, db.flags, db.teams, S, Ev⟩ : DB).addEvent
            ⟨ip, "flag-err-used", some fid, some cid, some u⟩,
           Except.error SubmitError.exhausted) := by
        simp [submit_flag, h1, hres1, hact1, hdup1, hover]
      have hrest : rest' = [] := by
        apply List.length_eq_zero.mp
        simp only [List.length_cons] at hlen
        omega
      subst hrest
      simp only [runSubmissions, hstep]
      rw [hext]
      simp

/-- **C3**: for a flag whose rows carry cap `N`, with `N + 1` distinct
existing users none of whom is otherwise blocked (individually scored
challenge, no prior submissions, zero starting count, active window), the
first `N` non-forced submissions succeed and the `(N+1)`-th fails with
the exhausted error; moreover any successful non-forced submission
requires the resolved flag's count to be below the cap of every row
carrying it, and increments that count by exactly one — so the count
never exceeds the cap through the normal path. -/
theorem c3_cap_enforcement
    (db : DB) (now : Int) (text ip fid cid : String) (N : Nat)
    (users : List String)
    (hres : resolveFlag db text = some (fid, cid))
    (hcap : ∀ f ∈ db.flags, f.fid = fid → f.max_submissions = (N : Int))
    (hteamfree : ∀ c ∈ db.challenges, c.cid = cid → c.team = false)
    (hact : isActive db now cid = true)
    (hcount : flagCount db fid = 0)
    (hmem : ∀ u ∈ users, u ∈ db.users)
    (hfresh : ∀ u ∈ users, alreadySubmitted db cid u = false)
    (hnodup : users.Nodup)
    (hlen : users.length = N + 1) :
    (runSubmissions now text ip db users).2 =
      List.replicate N (Except.ok cid) ++
        [Except.error SubmitError.exhausted] ∧
    (∀ (db2 : DB) (now2 : Int) (t2 u2 ip2 fid2 cid2 c2 : String),
      resolveFlag db2 t2 = some (fid2, cid2) →
      (submit_flag db2 now2 t2 u2 ip2 false).2 = Except.ok c2 →
      BelowCap db2 fid2 ∧
      flagCount (submit_flag db2 now2 t2 u2 ip2 false).1 fid2 =
        flagCount db2 fid2 + 1) := by
  constructor
  · have h := c3_run_aux db now text ip fid cid N hres hcap hteamfree hact
      hcount users [] db.events db.submissions (by simp) hmem hfresh
      (by simp) hnodup (by simpa using hlen) (by simp)
    simpa using h
  · intro db2 now2 t2 u2 ip2 fid2 cid2 c2 hres2 hok
    rcases Bool.eq_false_or_eq_true (userExists db2 u2) with h | h
    · rcases Bool.eq_false_or_eq_true (isActive db2 now2 cid2) with hA | hA
      · rcases Bool.eq_false_or_eq_true
          (alreadySubmitted db2 cid2 u2) with hd | hd
        · simp [submit_flag, h, hres2, hA, hd] at hok
        · rcases Bool.eq_false_or_eq_true
            (oversubscribed db2 fid2) with ho | ho
          · simp [submit_flag, h, hres2, hA, hd, ho] at hok
          · refine ⟨(oversubscribed_eq_false_iff db2 fid2).mp ho, ?_⟩
            have hdb : (submit_flag db2 now2 t2 u2 ip2 false).1 =
                { db2 with
                    submissions := db2.submissions ++ [(u2, fid2)],
                    events := db2.events ++
                      [⟨ip2, "flag-submit", some fid2, some cid2,
                        some u2⟩] } := by
              simp [submit_flag, h, hres2, hA, hd, ho]
            rw [hdb]
            simp [flagCount, List.filter_append]
      · simp [submit_flag, h, hres2, hA] at hok
    · simp [submit_flag, h] at hok

/-- Concrete database used to instantiate C3: one flag with cap 1 on an
active, individually scored challenge, and two distinct users. -/
def dbC3 : DB :=
  { users := ["alice", "bob"],
    challenges := [⟨"Demo", false, 0, 100⟩],
    flags := [⟨"f1", "Demo", 1⟩],
    teams := [],
    submissions := [],
    events := [] }

/-- Witness for C3: with cap 1, alice's submission succeeds and bob's
fails with the exhausted error. -/
theorem c3_witness :
    (runSubmissions 50 "f1" "1.2.3.4" dbC3 ["alice", "bob"]).2 =
      List.replicate 1 (Except.ok "Demo") ++
        [Except.error SubmitError.exhausted] :=
  (c3_cap_enforcement dbC3 50 "f1" "1.2.3.4" "f1" "Demo" 1 ["alice", "bob"]
    (by decide) (by decide) (by decide) (by decide) (by decide) (by decide)
    (by decide) (by decide) (by decide)).1

end R8
